import Mathlib

/-
  Verification of the session action compiler and request dispatch wrapper of
  the mycroft-dinkum skill runtime.

  Shallow embedding of src/shared/mycroft/skills/mycroft_skill/mycroft_skill.py:
  the pure core (`_build_actions`, the session envelope builders
  `emit_start_session` / `continue_session` / `end_session` / `abort_session`,
  the intent dispatch wrapper installed by `_add_intent_handler`, and the
  raw-response handler `__handle_skill_response`).  External collaborators
  (resource resolver, dialog renderer, uuid allocation, message unmunging) are
  modelled as an environment record of total functions, following the
  interfaces of the source; bus emission is modelled by returning the list of
  emitted session envelopes.
-/

set_option maxHeartbeats 1000000

namespace MycroftDinkum

/-- Values appearing in message data payloads.  The source stores strings,
`None`, and lists of strings in the payload slots the verified code reads
(`mycroft_session_id`, `skill_id`, `utterances`); other payload values are
opaque to the verified code and are not needed by any claim. -/
inductive PyValue where
  | pynone
  | pystr (s : String)
  | pylist (xs : List String)
deriving DecidableEq

/-- A Python dict, modelled as an association list in insertion order with
first-match lookup (a real dict has pairwise distinct keys, which theorems
assume where it matters). -/
abbrev Dict := List (String × PyValue)

/-- `d.get(key)`: first entry with the given key, `none` when absent. -/
def dictGet (d : Dict) (key : String) : Option PyValue :=
  match d with
  | [] => none
  | kv :: rest => if kv.1 = key then some kv.2 else dictGet rest key

/-- `key in d`. -/
def dictHasKey (d : Dict) (key : String) : Bool :=
  match d with
  | [] => false
  | kv :: rest => if kv.1 = key then true else dictHasKey rest key

/-- `d[key] = v`: replace the value in place when the key is present,
append at the end otherwise (Python dicts preserve insertion order). -/
def dictSet (d : Dict) (key : String) (v : PyValue) : Dict :=
  if dictHasKey d key then
    d.map (fun kv => if kv.1 = key then (key, v) else kv)
  else
    d ++ [(key, v)]

/-- Apply every entry of `d` to `base` in order, as the `**d` spread in a
dict display does. -/
def dictUpdate (base : Dict) (d : Dict) : Dict :=
  d.foldl (fun acc kv => dictSet acc kv.1 kv.2) base

/-- Last entry with a given key (the value a dict built from these entries
would hold). -/
def dictGetLast (d : Dict) (key : String) : Option PyValue :=
  match d with
  | [] => none
  | kv :: rest =>
      match dictGetLast rest key with
      | some v => some v
      | none => if kv.1 = key then some kv.2 else none

/-- An `Optional[str]` value as stored into a data payload. -/
def pyOfOption : Option String → PyValue
  | none => PyValue.pynone
  | some s => PyValue.pystr s

/-- Read a payload slot typed `Optional[str]` in the source: a missing key or
a stored `None` both read back as `None`. -/
def optStrOfPy : Option PyValue → Option String
  | some (PyValue.pystr s) => some s
  | _ => none

/-- Python `==` between a payload value (or a missing key, i.e. `None`) and an
`Optional[str]`. -/
def pyEqOptStr : Option PyValue → Option String → Bool
  | some (PyValue.pystr s), some t => s == t
  | some PyValue.pynone, none => true
  | none, none => true
  | _, _ => false

/-- The dict display `{"mycroft_session_id": session_id, **message.data}`
used for message actions (source lines 1218-1224 and 1301-1306): the session
id is inserted first, then the attached message's own data is spread over it. -/
def mergeData (session_id : Option String) (msgData : Dict) : Dict :=
  dictUpdate [("mycroft_session_id", pyOfOption session_id)] msgData

/-- `class GuiClear(str, Enum)` (source lines 68-73). -/
inductive GuiClear where
  | auto
  | on_idle
  | never
  | at_start
  | at_end
deriving DecidableEq

/-- `class MessageSend(str, Enum)` (source lines 76-78). -/
inductive MessageSend where
  | at_start
  | at_end
deriving DecidableEq

/-- A dialog request item: a bare template name, or a (name, data) pair
(`SessionDialogType`, source line 60). -/
inductive DialogItem where
  | name (dialog_name : String)
  | withData (dialog_name : String) (dialog_data : Dict)
deriving DecidableEq

/-- A GUI request item: a bare page name, or a (page, data) pair
(`SessionGuiType`, source line 64). -/
inductive GuiItem where
  | page (gui_page : String)
  | withData (gui_page : String) (gui_data : Option Dict)
deriving DecidableEq

/-- A single item or a sequence of items (`SessionDialogsType` /
`SessionGuisType`, source lines 61 and 65). -/
inductive Items (α : Type) where
  | single (item : α)
  | seq (items : List α)
deriving DecidableEq

/-- Normalisation done at source lines 1236-1251: `None` gives the empty
list, a single item gives a one-element list, a sequence is listed as is. -/
def itemsToList {α : Type} : Option (Items α) → List α
  | none => []
  | some (Items.single x) => [x]
  | some (Items.seq xs) => xs

/-- An inbound or attached bus message (`mycroft.messagebus.message.Message`):
a type plus a data payload. -/
structure Msg where
  msg_type : String
  data : Dict
deriving DecidableEq

/-- The `message_delay` float is carried through untouched by the verified
code; it is modelled opaquely (no claim depends on its arithmetic). -/
abbrev MessageDelay := Int

/-- One compiled action record, tagged as in the dicts built by
`_build_actions` (source lines 1207-1330).  `delay` is `none` for an
`at_start` message action (whose dict has no "delay" key) and
`some message_delay` for an `at_end` one.  `dialog` is `none` for a literal
`speak` action (whose dict has no "dialog" key). -/
inductive Action where
  | message (message_type : String) (delay : Option MessageDelay) (data : Dict)
  | clear_display
  | audio_alert (uri : String) (wait : Bool)
  | show_page (page : String) (data : Option Dict) (ns : String)
  | speak (utterance : String) (dialog : Option String) (wait : Bool)
  | stream_music (uri : String)
  | get_response
  | wait_for_idle
deriving DecidableEq

/-- The payload fields specific to each outbound session envelope type:
`continue_session` for a start envelope, `state` for a continue envelope,
`aborted` for an end envelope. -/
inductive OutData where
  | startData (continue_session : Bool)
  | continueData (state : Option Dict)
  | endData (aborted : Bool)
deriving DecidableEq

/-- An outbound session envelope as built by `emit_start_session`,
`continue_session` and `end_session`. -/
structure OutMessage where
  msg_type : String
  mycroft_session_id : Option String
  skill_id : String
  actions : List Action
  extra : OutData
deriving DecidableEq

/-- The skill state the verified code reads and writes: the skill id, the
human-readable name, and the mutable `_mycroft_session_id` field holding the
session of the request currently being handled. -/
structure MycroftSkill where
  skill_id : String
  name : String
  mycroft_session_id : Option String
deriving DecidableEq

/-- External collaborators, as total functions (spec section 6): the resource
resolver for `find_resource(page, "ui")`, the dialog renderer, the
`camel_case_split` utility used for the error dialog, the uuid allocated by
`emit_start_session`, and `unmunge_message`. -/
structure Env where
  find_resource : String → String
  render : String → Dict → String
  camel_case_split : String → String
  new_session_id : String
  unmunge : Msg → Msg

/-- The keyword arguments of `_build_actions` (source lines 1186-1198), in
source order. -/
structure BuildArgs where
  dialog : Option (Items DialogItem)
  speak : Option String
  speak_wait : Bool
  gui : Option (Items GuiItem)
  gui_clear : GuiClear
  audio_alert : Option String
  music_uri : Option String
  message : Option Msg
  message_send : MessageSend
  message_delay : MessageDelay
  expect_response : Bool
deriving DecidableEq

/-- All defaults of `_build_actions`. -/
def defaultBuildArgs : BuildArgs :=
  ⟨none, none, true, none, GuiClear.auto, none, none, none, MessageSend.at_start, 0, false⟩

/-- The keyword arguments of `end_session` (source lines 1420-1432): the same
as `_build_actions` minus `expect_response`, which `end_session` does not
expose. -/
structure EndArgs where
  dialog : Option (Items DialogItem)
  speak : Option String
  speak_wait : Bool
  gui : Option (Items GuiItem)
  gui_clear : GuiClear
  audio_alert : Option String
  music_uri : Option String
  message : Option Msg
  message_send : MessageSend
  message_delay : MessageDelay
deriving DecidableEq

/-- All defaults of `end_session`. -/
def defaultEndArgs : EndArgs :=
  ⟨none, none, true, none, GuiClear.auto, none, none, none, MessageSend.at_start, 0⟩

/-- `end_session` forwards its arguments to `_build_actions`, leaving
`expect_response` at its default `False` (source lines 1443-1454). -/
def EndArgs.toBuildArgs (a : EndArgs) : BuildArgs :=
  ⟨a.dialog, a.speak, a.speak_wait, a.gui, a.gui_clear, a.audio_alert, a.music_uri,
   a.message, a.message_send, a.message_delay, false⟩

/-- Source lines 1209-1211: do not clear the GUI when a response is expected
(`AUTO` degrades to `NEVER`). -/
def effectiveGuiClear (expect_response : Bool) (gui_clear : GuiClear) : GuiClear :=
  if expect_response = true ∧ gui_clear = GuiClear.auto then GuiClear.never else gui_clear

/-- Step 1 of `_build_actions` (source lines 1214-1225): the attached message
emitted at the start when `message_send == AT_START`. -/
def messageStartActions (skill : MycroftSkill) (message : Option Msg)
    (message_send : MessageSend) : List Action :=
  match message with
  | some m =>
      if message_send = MessageSend.at_start then
        [Action.message m.msg_type none (mergeData skill.mycroft_session_id m.data)]
      else []
  | none => []

/-- Source lines 1295-1307: the attached message emitted near the end when
`message_send == AT_END`, carrying the configured delay. -/
def messageEndActions (skill : MycroftSkill) (message : Option Msg)
    (message_send : MessageSend) (message_delay : MessageDelay) : List Action :=
  match message with
  | some m =>
      if message_send = MessageSend.at_end then
        [Action.message m.msg_type (some message_delay) (mergeData skill.mycroft_session_id m.data)]
      else []
  | none => []

/-- Step 3 of `_build_actions` (source lines 1232-1233); `if audio_alert:`
is a truthiness test, so the empty string emits nothing. -/
def audioAlertActions (audio_alert : Option String) : List Action :=
  match audio_alert with
  | some uri => if uri = "" then [] else [Action.audio_alert uri true]
  | none => []

/-- The `show_page` action built at source lines 1255-1268: a bare page name
carries no data; the page URI goes through the resource resolver. -/
def showPageAction (env : Env) (skill : MycroftSkill) (g : GuiItem) : Action :=
  match g with
  | GuiItem.page gui_page =>
      Action.show_page ("file://" ++ env.find_resource gui_page) none
        (skill.skill_id ++ "." ++ gui_page)
  | GuiItem.withData gui_page gui_data =>
      Action.show_page ("file://" ++ env.find_resource gui_page) gui_data
        (skill.skill_id ++ "." ++ gui_page)

/-- The `speak` action built at source lines 1270-1284 for a paired dialog
item: a bare name renders with empty data; the dict carries the dialog name. -/
def speakDialogAction (env : Env) (speak_wait : Bool) (d : DialogItem) : Action :=
  match d with
  | DialogItem.name dialog_name =>
      Action.speak (env.render dialog_name []) (some dialog_name) speak_wait
  | DialogItem.withData dialog_name dialog_data =>
      Action.speak (env.render dialog_name dialog_data) (some dialog_name) speak_wait

/-- Source lines 1253-1284: `for maybe_dialog, maybe_gui in
itertools.zip_longest(dialogs, guis)` — a padding zip, the shorter list
contributing `None` slots — emitting, at each position, the `show_page`
action (when a GUI item is present) before the `speak` action (when a dialog
item is present). -/
def interleavedActions (env : Env) (skill : MycroftSkill) (speak_wait : Bool) :
    List DialogItem → List GuiItem → List Action
  | [], gs => gs.map (showPageAction env skill)
  | d :: ds, [] =>
      speakDialogAction env speak_wait d :: interleavedActions env skill speak_wait ds []
  | d :: ds, g :: gs =>
      showPageAction env skill g :: speakDialogAction env speak_wait d ::
        interleavedActions env skill speak_wait ds gs

/-- Source lines 1286-1293: the literal `speak` action (its dict has no
"dialog" key); emitted whenever `speak is not None`. -/
def speakActions (speak : Option String) (speak_wait : Bool) : List Action :=
  match speak with
  | some utterance => [Action.speak utterance none speak_wait]
  | none => []

/-- Source lines 1309-1310; `if music_uri:` is a truthiness test. -/
def musicActions (music_uri : Option String) : List Action :=
  match music_uri with
  | some uri => if uri = "" then [] else [Action.stream_music uri]
  | none => []

/-- Source lines 1315-1325: resolve the `AUTO` clear policy from the compiled
content — pages shown and any speech (paired dialog or literal) gives
`AT_END`, pages shown without speech gives `ON_IDLE`, no pages gives
`NEVER`.  Any other policy is left as is. -/
def resolveGuiClear (gui_clear : GuiClear) (guis : List GuiItem)
    (dialogs : List DialogItem) (speak : Option String) : GuiClear :=
  if gui_clear = GuiClear.auto then
    if guis ≠ [] then
      if dialogs ≠ [] ∨ speak ≠ none then GuiClear.at_end else GuiClear.on_idle
    else GuiClear.never
  else gui_clear

/-- Source lines 1327-1330: the trailing action for the resolved policy. -/
def trailingActions (gui_clear : GuiClear) : List Action :=
  if gui_clear = GuiClear.at_end then [Action.clear_display]
  else if gui_clear = GuiClear.on_idle then [Action.wait_for_idle]
  else []

/-- `_build_actions` (source lines 1186-1332): the full compiled action list
in the fixed emission order. -/
def build_actions (env : Env) (skill : MycroftSkill) (a : BuildArgs) : List Action :=
  let gc := effectiveGuiClear a.expect_response a.gui_clear
  let guis := itemsToList a.gui
  let dialogs := itemsToList a.dialog
  messageStartActions skill a.message a.message_send
    ++ (if gc = GuiClear.at_start then [Action.clear_display] else [])
    ++ audioAlertActions a.audio_alert
    ++ interleavedActions env skill a.speak_wait dialogs guis
    ++ speakActions a.speak a.speak_wait
    ++ messageEndActions skill a.message a.message_send a.message_delay
    ++ musicActions a.music_uri
    ++ (if a.expect_response then [Action.get_response] else [])
    ++ trailingActions (resolveGuiClear gc guis dialogs a.speak)

/-- `emit_start_session` (source lines 1334-1376): allocates a fresh session
id when none is supplied, emits a `mycroft.session.start` envelope and
returns the id.  The emitted envelope and the returned id are paired. -/
def emit_start_session (env : Env) (skill : MycroftSkill) (a : BuildArgs)
    (continue_session_flag : Bool) (mycroft_session_id : Option String) :
    OutMessage × String :=
  let sid := match mycroft_session_id with
    | none => env.new_session_id
    | some s => s
  (⟨"mycroft.session.start", some sid, skill.skill_id, build_actions env skill a,
    OutData.startData continue_session_flag⟩, sid)

/-- `continue_session` (source lines 1378-1418): the session id defaults to
the one of the request currently being handled. -/
def continue_session (env : Env) (skill : MycroftSkill) (a : BuildArgs)
    (mycroft_session_id : Option String) (state : Option Dict) : OutMessage :=
  let sid := match mycroft_session_id with
    | none => skill.mycroft_session_id
    | some s => some s
  ⟨"mycroft.session.continue", sid, skill.skill_id, build_actions env skill a,
   OutData.continueData state⟩

/-- `end_session` (source lines 1420-1456): same id-defaulting rule as
`continue_session`; `expect_response` is not forwarded to `_build_actions`. -/
def end_session (env : Env) (skill : MycroftSkill) (a : EndArgs)
    (mycroft_session_id : Option String) : OutMessage :=
  let sid := match mycroft_session_id with
    | none => skill.mycroft_session_id
    | some s => some s
  ⟨"mycroft.session.end", sid, skill.skill_id,
   build_actions env skill a.toBuildArgs, OutData.endData false⟩

/-- `abort_session` (source lines 1458-1461): a default `end_session`
envelope with `aborted` set to true afterwards. -/
def abort_session (env : Env) (skill : MycroftSkill) : OutMessage :=
  let m := end_session env skill defaultEndArgs none
  ⟨m.msg_type, m.mycroft_session_id, m.skill_id, m.actions, OutData.endData true⟩

/-- The observable outcome of invoking a registered handler: it returns an
optional envelope, or it raises. -/
inductive HandlerOutcome where
  | returns (result : Option OutMessage)
  | raises

/-- The first statement of `_handle_intent` (source line 673): record the
inbound request's session id as the active context. -/
def set_session_context (skill : MycroftSkill) (message : Msg) : MycroftSkill :=
  ⟨skill.skill_id, skill.name, optStrOfPy (dictGet message.data "mycroft_session_id")⟩

/-- The arguments of the `emit_start_session` call in the exception branch of
`_handle_intent` (source lines 690-692): the `skill.error` dialog with the
split skill name. -/
def errorDialogArgs (env : Env) (skill : MycroftSkill) : BuildArgs :=
  ⟨some (Items.single (DialogItem.withData "skill.error"
      [("skill", PyValue.pystr (env.camel_case_split skill.name))])),
   none, true, none, GuiClear.auto, none, none, none, MessageSend.at_start, 0, false⟩

/-- The dispatch wrapper `_handle_intent` installed by `_add_intent_handler`
(source lines 671-699): establish the session context, invoke the handler on
the unmunged message, and emit.  A raising handler first causes an error
`mycroft.session.start` envelope, then — the result being `None` — the
fallback `end_session` envelope; a `None` result alone causes just the
fallback.  Returns the updated skill state and the emitted session envelopes
in emission order (the acknowledgment sound is not a session envelope and is
not tracked). -/
def handle_intent (env : Env) (skill : MycroftSkill) (message : Msg)
    (handler : Msg → HandlerOutcome) : MycroftSkill × List OutMessage :=
  let skill := set_session_context skill message
  match handler (env.unmunge message) with
  | HandlerOutcome.returns (some result_message) => (skill, [result_message])
  | HandlerOutcome.returns none => (skill, [end_session env skill defaultEndArgs none])
  | HandlerOutcome.raises =>
      (skill, [(emit_start_session env skill (errorDialogArgs env skill) false none).1,
               end_session env skill defaultEndArgs none])

/-- `__handle_skill_response` (source lines 1469-1487): only when the inbound
`skill_id` and `mycroft_session_id` both match the active context is
`raw_utterance` invoked (with the first utterance and the echoed state); a
`None` result or an exception falls back to a default `end_session`
envelope.  A mismatch does nothing.  Returns the (unchanged) skill state, the
emitted envelopes, and whether `raw_utterance` was invoked. -/
def handle_skill_response (env : Env) (skill : MycroftSkill)
    (raw_utterance : Option String → Option PyValue → HandlerOutcome)
    (message : Msg) : MycroftSkill × List OutMessage × Bool :=
  if pyEqOptStr (dictGet message.data "skill_id") (some skill.skill_id) = true ∧
      pyEqOptStr (dictGet message.data "mycroft_session_id") skill.mycroft_session_id = true then
    let utterances := match dictGet message.data "utterances" with
      | some (PyValue.pylist xs) => xs
      | _ => []
    let utterance := utterances.head?
    let state := dictGet message.data "state"
    match raw_utterance utterance state with
    | HandlerOutcome.returns (some result_message) => (skill, [result_message], true)
    | HandlerOutcome.returns none =>
        (skill, [end_session env skill defaultEndArgs none], true)
    | HandlerOutcome.raises =>
        (skill, [end_session env skill defaultEndArgs none], true)
  else
    (skill, [], false)

/-! Dictionary lemmas: the lookup behaviour of the dict display
`{"mycroft_session_id": sid, **data}`. -/

theorem dictGet_of_hasKey_false {d : Dict} {k : String} (h : dictHasKey d k = false) :
    dictGet d k = none := by
  induction d with
  | nil => rfl
  | cons kv rest ih =>
    unfold dictHasKey at h
    unfold dictGet
    by_cases hk : kv.1 = k
    · simp [hk] at h
    · simp only [hk, if_false]
      exact ih (by simpa [hk] using h)

theorem dictGet_append (d e : Dict) (k : String) :
    dictGet (d ++ e) k =
      match dictGet d k with
      | some v => some v
      | none => dictGet e k := by
  induction d with
  | nil => rfl
  | cons kv rest ih =>
    by_cases hk : kv.1 = k
    · show (if kv.1 = k then some kv.2 else dictGet (rest ++ e) k) = _
      have hhd : dictGet (kv :: rest) k = some kv.2 := by
        show (if kv.1 = k then some kv.2 else dictGet rest k) = _
        rw [if_pos hk]
      rw [if_pos hk, hhd]
    · show (if kv.1 = k then some kv.2 else dictGet (rest ++ e) k) = _
      have hhd : dictGet (kv :: rest) k = dictGet rest k := by
        show (if kv.1 = k then some kv.2 else dictGet rest k) = _
        rw [if_neg hk]
      rw [if_neg hk, ih, hhd]

theorem dictGet_map_set_self (d : Dict) (k : String) (v : PyValue) :
    dictGet (d.map (fun kv => if kv.1 = k then (k, v) else kv)) k =
      if dictHasKey d k then some v else none := by
  induction d with
  | nil => rfl
  | cons kv rest ih =>
    by_cases hk : kv.1 = k
    · simp [dictGet, dictHasKey, hk]
    · simp [dictGet, dictHasKey, hk, ih]

theorem dictGet_map_set_ne (d : Dict) (k k' : String) (v : PyValue) (h : k' ≠ k) :
    dictGet (d.map (fun kv => if kv.1 = k then (k, v) else kv)) k' = dictGet d k' := by
  induction d with
  | nil => rfl
  | cons kv rest ih =>
    by_cases hk : kv.1 = k
    · have hne : ¬(k = k') := fun he => h he.symm
      simp [dictGet, hk, hne, ih]
    · simp [dictGet, hk, ih]

theorem dictGet_dictSet_self (d : Dict) (k : String) (v : PyValue) :
    dictGet (dictSet d k v) k = some v := by
  unfold dictSet
  by_cases h : dictHasKey d k
  · simp [h, dictGet_map_set_self]
  · simp only [h, if_false, Bool.false_eq_true]
    rw [dictGet_append]
    simp [dictGet_of_hasKey_false (by simpa using h), dictGet]

theorem dictGet_dictSet_ne (d : Dict) (k k' : String) (v : PyValue) (h : k' ≠ k) :
    dictGet (dictSet d k v) k' = dictGet d k' := by
  unfold dictSet
  by_cases hk : dictHasKey d k
  · simp [hk, dictGet_map_set_ne d k k' v h]
  · simp only [hk, if_false, Bool.false_eq_true]
    rw [dictGet_append]
    have hne : ¬(k = k') := fun he => h he.symm
    cases hd : dictGet d k' with
    | some w => rfl
    | none => simp [dictGet, hne]

theorem dictUpdate_cons (base : Dict) (kv : String × PyValue) (rest : Dict) :
    dictUpdate base (kv :: rest) = dictUpdate (dictSet base kv.1 kv.2) rest := rfl

theorem dictGet_dictUpdate (d : Dict) (base : Dict) (k : String) :
    dictGet (dictUpdate base d) k =
      match dictGetLast d k with
      | some v => some v
      | none => dictGet base k := by
  induction d generalizing base with
  | nil => rfl
  | cons kv rest ih =>
    rw [dictUpdate_cons, ih]
    by_cases hk : kv.1 = k
    · cases hrest : dictGetLast rest k with
      | some w => simp [dictGetLast, hrest]
      | none => simp [dictGetLast, hrest, hk, hk ▸ dictGet_dictSet_self base kv.1 kv.2]
    · cases hrest : dictGetLast rest k with
      | some w => simp [dictGetLast, hrest]
      | none =>
        simp [dictGetLast, hrest, hk,
          dictGet_dictSet_ne base kv.1 k kv.2 (fun he => hk he.symm)]

theorem dictGetLast_of_not_mem {d : Dict} {k : String} (h : k ∉ d.map Prod.fst) :
    dictGetLast d k = none := by
  induction d with
  | nil => rfl
  | cons kv rest ih =>
    simp only [List.map_cons, List.mem_cons] at h
    push_neg at h
    have hk : ¬(kv.1 = k) := fun he => h.1 he.symm
    simp [dictGetLast, ih h.2, hk]

theorem dictGetLast_of_nodup {d : Dict} (k : String) (h : (d.map Prod.fst).Nodup) :
    dictGetLast d k = dictGet d k := by
  induction d with
  | nil => rfl
  | cons kv rest ih =>
    simp only [List.map_cons, List.nodup_cons] at h
    by_cases hk : kv.1 = k
    · have : k ∉ rest.map Prod.fst := hk ▸ h.1
      simp [dictGetLast, dictGet, dictGetLast_of_not_mem this, hk]
    · simp only [dictGetLast, dictGet, hk, if_false, ih h.2]
      cases dictGet rest k <;> rfl

/-- The override semantics of `{"mycroft_session_id": sid, **data}`: when the
attached message's own data has the key (dict keys are pairwise distinct),
the message's own value wins. -/
theorem dictGet_mergeData_of_mem (sid : Option String) (md : Dict) (v : PyValue)
    (hnd : (md.map Prod.fst).Nodup) (hv : dictGet md "mycroft_session_id" = some v) :
    dictGet (mergeData sid md) "mycroft_session_id" = some v := by
  unfold mergeData
  rw [dictGet_dictUpdate, dictGetLast_of_nodup _ hnd, hv]

/-! Shape of each compiled segment: which actions can appear where. -/

theorem mem_messageStartActions {skill : MycroftSkill} {m : Option Msg}
    {ms : MessageSend} {x : Action} :
    x ∈ messageStartActions skill m ms ↔
      ∃ mm, m = some mm ∧ ms = MessageSend.at_start ∧
        x = Action.message mm.msg_type none (mergeData skill.mycroft_session_id mm.data) := by
  cases m with
  | none => simp [messageStartActions]
  | some mm =>
    by_cases h : ms = MessageSend.at_start <;> simp [messageStartActions, h]

theorem mem_messageEndActions {skill : MycroftSkill} {m : Option Msg}
    {ms : MessageSend} {delay : MessageDelay} {x : Action} :
    x ∈ messageEndActions skill m ms delay ↔
      ∃ mm, m = some mm ∧ ms = MessageSend.at_end ∧
        x = Action.message mm.msg_type (some delay) (mergeData skill.mycroft_session_id mm.data) := by
  cases m with
  | none => simp [messageEndActions]
  | some mm =>
    by_cases h : ms = MessageSend.at_end <;> simp [messageEndActions, h]

theorem mem_audioAlertActions {u : Option String} {x : Action} :
    x ∈ audioAlertActions u ↔
      ∃ uri, u = some uri ∧ ¬(uri = "") ∧ x = Action.audio_alert uri true := by
  cases u with
  | none => simp [audioAlertActions]
  | some uri =>
    by_cases h : uri = "" <;> simp [audioAlertActions, h]

theorem mem_speakActions {sp : Option String} {w : Bool} {x : Action} :
    x ∈ speakActions sp w ↔ ∃ u, sp = some u ∧ x = Action.speak u none w := by
  cases sp <;> simp [speakActions]

theorem mem_musicActions {mu : Option String} {x : Action} :
    x ∈ musicActions mu ↔ ∃ uri, mu = some uri ∧ ¬(uri = "") ∧ x = Action.stream_music uri := by
  cases mu with
  | none => simp [musicActions]
  | some uri =>
    by_cases h : uri = "" <;> simp [musicActions, h]

theorem mem_trailingActions {g : GuiClear} {x : Action} :
    x ∈ trailingActions g ↔
      (g = GuiClear.at_end ∧ x = Action.clear_display) ∨
      (g = GuiClear.on_idle ∧ x = Action.wait_for_idle) := by
  cases g <;> simp [trailingActions]

theorem showPageAction_shape (env : Env) (skill : MycroftSkill) (g : GuiItem) :
    ∃ p dd n, showPageAction env skill g = Action.show_page p dd n := by
  cases g <;> exact ⟨_, _, _, rfl⟩

theorem speakDialogAction_shape (env : Env) (w : Bool) (d : DialogItem) :
    ∃ u n, speakDialogAction env w d = Action.speak u (some n) w := by
  cases d <;> exact ⟨_, _, rfl⟩

theorem mem_interleavedActions {env : Env} {skill : MycroftSkill} {w : Bool} :
    ∀ {ds : List DialogItem} {gs : List GuiItem} {x : Action},
      x ∈ interleavedActions env skill w ds gs →
      (∃ g, x = showPageAction env skill g) ∨ (∃ d, x = speakDialogAction env w d) := by
  intro ds
  induction ds with
  | nil =>
    intro gs x hx
    simp only [interleavedActions, List.mem_map] at hx
    obtain ⟨g, _, rfl⟩ := hx
    exact Or.inl ⟨g, rfl⟩
  | cons d ds ih =>
    intro gs x hx
    cases gs with
    | nil =>
      simp only [interleavedActions, List.mem_cons] at hx
      rcases hx with rfl | hx
      · exact Or.inr ⟨d, rfl⟩
      · exact ih hx
    | cons g gs =>
      simp only [interleavedActions, List.mem_cons] at hx
      rcases hx with rfl | rfl | hx
      · exact Or.inl ⟨g, rfl⟩
      · exact Or.inr ⟨d, rfl⟩
      · exact ih hx

/-- Decomposition of the compiled list into its nine segments, in emission
order. -/
theorem build_actions_eq (env : Env) (skill : MycroftSkill) (a : BuildArgs) :
    build_actions env skill a =
      messageStartActions skill a.message a.message_send
        ++ (if effectiveGuiClear a.expect_response a.gui_clear = GuiClear.at_start
              then [Action.clear_display] else [])
        ++ audioAlertActions a.audio_alert
        ++ interleavedActions env skill a.speak_wait (itemsToList a.dialog) (itemsToList a.gui)
        ++ speakActions a.speak a.speak_wait
        ++ messageEndActions skill a.message a.message_send a.message_delay
        ++ musicActions a.music_uri
        ++ (if a.expect_response then [Action.get_response] else [])
        ++ trailingActions (resolveGuiClear (effectiveGuiClear a.expect_response a.gui_clear)
              (itemsToList a.gui) (itemsToList a.dialog) a.speak) := rfl

theorem mem_build_actions {env : Env} {skill : MycroftSkill} {a : BuildArgs} {x : Action} :
    x ∈ build_actions env skill a ↔
      x ∈ messageStartActions skill a.message a.message_send ∨
      x ∈ (if effectiveGuiClear a.expect_response a.gui_clear = GuiClear.at_start
            then ([Action.clear_display] : List Action) else []) ∨
      x ∈ audioAlertActions a.audio_alert ∨
      x ∈ interleavedActions env skill a.speak_wait (itemsToList a.dialog) (itemsToList a.gui) ∨
      x ∈ speakActions a.speak a.speak_wait ∨
      x ∈ messageEndActions skill a.message a.message_send a.message_delay ∨
      x ∈ musicActions a.music_uri ∨
      x ∈ (if a.expect_response then ([Action.get_response] : List Action) else []) ∨
      x ∈ trailingActions (resolveGuiClear (effectiveGuiClear a.expect_response a.gui_clear)
            (itemsToList a.gui) (itemsToList a.dialog) a.speak) := by
  rw [build_actions_eq]
  simp [List.mem_append, or_assoc]

/-! Policy resolution lemmas. -/

theorem resolveGuiClear_of_ne_auto {g : GuiClear} (h : ¬(g = GuiClear.auto))
    (guis : List GuiItem) (ds : List DialogItem) (sp : Option String) :
    resolveGuiClear g guis ds sp = g := by
  simp [resolveGuiClear, h]

theorem effectiveGuiClear_true_ne_auto (g : GuiClear) :
    ¬(effectiveGuiClear true g = GuiClear.auto) := by
  cases g <;> simp [effectiveGuiClear]

theorem effectiveGuiClear_false (g : GuiClear) : effectiveGuiClear false g = g := by
  simp [effectiveGuiClear]

/-- Actions that carry presentation content, as opposed to the three control
actions `clear_display`, `get_response`, `wait_for_idle`. -/
def presentationAction : Action → Bool
  | Action.message _ _ _ => true
  | Action.audio_alert _ _ => true
  | Action.show_page _ _ _ => true
  | Action.speak _ _ _ => true
  | Action.stream_music _ => true
  | _ => false

theorem not_mem_of_presentation {l : List Action}
    (hl : ∀ x ∈ l, presentationAction x = true) {y : Action}
    (hy : presentationAction y = false) : y ∉ l :=
  fun hmem => by rw [hl y hmem] at hy; cases hy

theorem presentation_messageStart (skill : MycroftSkill) (m : Option Msg) (ms : MessageSend) :
    ∀ x ∈ messageStartActions skill m ms, presentationAction x = true := by
  intro x hx
  obtain ⟨mm, _, _, rfl⟩ := mem_messageStartActions.mp hx
  rfl

theorem presentation_messageEnd (skill : MycroftSkill) (m : Option Msg)
    (ms : MessageSend) (delay : MessageDelay) :
    ∀ x ∈ messageEndActions skill m ms delay, presentationAction x = true := by
  intro x hx
  obtain ⟨mm, _, _, rfl⟩ := mem_messageEndActions.mp hx
  rfl

theorem presentation_audioAlert (u : Option String) :
    ∀ x ∈ audioAlertActions u, presentationAction x = true := by
  intro x hx
  obtain ⟨uri, _, _, rfl⟩ := mem_audioAlertActions.mp hx
  rfl

theorem presentation_speak (sp : Option String) (w : Bool) :
    ∀ x ∈ speakActions sp w, presentationAction x = true := by
  intro x hx
  obtain ⟨u, _, rfl⟩ := mem_speakActions.mp hx
  rfl

theorem presentation_music (mu : Option String) :
    ∀ x ∈ musicActions mu, presentationAction x = true := by
  intro x hx
  obtain ⟨uri, _, _, rfl⟩ := mem_musicActions.mp hx
  rfl

theorem presentation_interleaved (env : Env) (skill : MycroftSkill) (w : Bool)
    (ds : List DialogItem) (gs : List GuiItem) :
    ∀ x ∈ interleavedActions env skill w ds gs, presentationAction x = true := by
  intro x hx
  rcases mem_interleavedActions hx with ⟨g, rfl⟩ | ⟨d, rfl⟩
  · obtain ⟨p, dd, n, hs⟩ := showPageAction_shape env skill g
    rw [hs]; rfl
  · obtain ⟨u, n, hs⟩ := speakDialogAction_shape env w d
    rw [hs]; rfl

/-- A control action in the compiled list can only come from the `at_start`
clear slot, the `get_response` slot, or the trailing slot. -/
theorem control_mem_build {env : Env} {skill : MycroftSkill} {a : BuildArgs} {x : Action}
    (h : x ∈ build_actions env skill a) (hx : presentationAction x = false) :
    x ∈ (if effectiveGuiClear a.expect_response a.gui_clear = GuiClear.at_start
          then ([Action.clear_display] : List Action) else []) ∨
    x ∈ (if a.expect_response then ([Action.get_response] : List Action) else []) ∨
    x ∈ trailingActions (resolveGuiClear (effectiveGuiClear a.expect_response a.gui_clear)
          (itemsToList a.gui) (itemsToList a.dialog) a.speak) := by
  rw [mem_build_actions] at h
  rcases h with h | h | h | h | h | h | h | h | h
  · exact absurd hx (by rw [presentation_messageStart _ _ _ x h]; simp)
  · exact Or.inl h
  · exact absurd hx (by rw [presentation_audioAlert _ x h]; simp)
  · exact absurd hx (by rw [presentation_interleaved env skill _ _ _ x h]; simp)
  · exact absurd hx (by rw [presentation_speak _ _ x h]; simp)
  · exact absurd hx (by rw [presentation_messageEnd _ _ _ _ x h]; simp)
  · exact absurd hx (by rw [presentation_music _ x h]; simp)
  · exact Or.inr (Or.inl h)
  · exact Or.inr (Or.inr h)

theorem clear_display_mem_build {env : Env} {skill : MycroftSkill} {a : BuildArgs}
    (h : Action.clear_display ∈ build_actions env skill a) :
    effectiveGuiClear a.expect_response a.gui_clear = GuiClear.at_start ∨
    resolveGuiClear (effectiveGuiClear a.expect_response a.gui_clear)
      (itemsToList a.gui) (itemsToList a.dialog) a.speak = GuiClear.at_end := by
  rcases control_mem_build h rfl with h | h | h
  · by_cases hc : effectiveGuiClear a.expect_response a.gui_clear = GuiClear.at_start
    · exact Or.inl hc
    · rw [if_neg hc] at h; cases h
  · by_cases hc : a.expect_response = true
    · rw [if_pos hc] at h; simp at h
    · rw [if_neg hc] at h; cases h
  · rcases mem_trailingActions.mp h with ⟨hg, _⟩ | ⟨_, hw⟩
    · exact Or.inr hg
    · cases hw

theorem wait_for_idle_mem_build {env : Env} {skill : MycroftSkill} {a : BuildArgs}
    (h : Action.wait_for_idle ∈ build_actions env skill a) :
    resolveGuiClear (effectiveGuiClear a.expect_response a.gui_clear)
      (itemsToList a.gui) (itemsToList a.dialog) a.speak = GuiClear.on_idle := by
  rcases control_mem_build h rfl with h | h | h
  · by_cases hc : effectiveGuiClear a.expect_response a.gui_clear = GuiClear.at_start
    · rw [if_pos hc] at h; simp at h
    · rw [if_neg hc] at h; cases h
  · by_cases hc : a.expect_response = true
    · rw [if_pos hc] at h; simp at h
    · rw [if_neg hc] at h; cases h
  · rcases mem_trailingActions.mp h with ⟨_, hw⟩ | ⟨hg, _⟩
    · cases hw
    · exact hg

theorem get_response_mem_build {env : Env} {skill : MycroftSkill} {a : BuildArgs}
    (h : Action.get_response ∈ build_actions env skill a) :
    a.expect_response = true := by
  rcases control_mem_build h rfl with h | h | h
  · by_cases hc : effectiveGuiClear a.expect_response a.gui_clear = GuiClear.at_start
    · rw [if_pos hc] at h; simp at h
    · rw [if_neg hc] at h; cases h
  · by_cases hc : a.expect_response = true
    · exact hc
    · rw [if_neg hc] at h; cases h
  · rcases mem_trailingActions.mp h with ⟨_, hw⟩ | ⟨_, hw⟩ <;> cases hw

theorem get_response_mem_build_of_expect {env : Env} {skill : MycroftSkill} {a : BuildArgs}
    (h : a.expect_response = true) :
    Action.get_response ∈ build_actions env skill a := by
  rw [mem_build_actions]
  refine Or.inr (Or.inr (Or.inr (Or.inr (Or.inr (Or.inr (Or.inr (Or.inl ?_)))))))
  rw [if_pos h]
  exact List.mem_singleton.mpr rfl

theorem count_clear_trailing (g : GuiClear) :
    (trailingActions g).count Action.clear_display =
      if g = GuiClear.at_end then 1 else 0 := by
  cases g <;> decide

/-- The number of `clear_display` actions in the compiled list: one for the
`at_start` slot, one for the resolved trailing slot. -/
theorem count_clear_build (env : Env) (skill : MycroftSkill) (a : BuildArgs) :
    (build_actions env skill a).count Action.clear_display =
      (if effectiveGuiClear a.expect_response a.gui_clear = GuiClear.at_start then 1 else 0) +
      (if resolveGuiClear (effectiveGuiClear a.expect_response a.gui_clear)
          (itemsToList a.gui) (itemsToList a.dialog) a.speak = GuiClear.at_end
        then 1 else 0) := by
  have h1 : (messageStartActions skill a.message a.message_send).count Action.clear_display = 0 :=
    List.count_eq_zero.mpr (not_mem_of_presentation (presentation_messageStart _ _ _) rfl)
  have h3 : (audioAlertActions a.audio_alert).count Action.clear_display = 0 :=
    List.count_eq_zero.mpr (not_mem_of_presentation (presentation_audioAlert _) rfl)
  have h4 : (interleavedActions env skill a.speak_wait (itemsToList a.dialog)
      (itemsToList a.gui)).count Action.clear_display = 0 :=
    List.count_eq_zero.mpr (not_mem_of_presentation (presentation_interleaved _ _ _ _ _) rfl)
  have h5 : (speakActions a.speak a.speak_wait).count Action.clear_display = 0 :=
    List.count_eq_zero.mpr (not_mem_of_presentation (presentation_speak _ _) rfl)
  have h6 : (messageEndActions skill a.message a.message_send
      a.message_delay).count Action.clear_display = 0 :=
    List.count_eq_zero.mpr (not_mem_of_presentation (presentation_messageEnd _ _ _ _) rfl)
  have h7 : (musicActions a.music_uri).count Action.clear_display = 0 :=
    List.count_eq_zero.mpr (not_mem_of_presentation (presentation_music _) rfl)
  have h2 : ((if effectiveGuiClear a.expect_response a.gui_clear = GuiClear.at_start
      then ([Action.clear_display] : List Action) else [])).count Action.clear_display =
      if effectiveGuiClear a.expect_response a.gui_clear = GuiClear.at_start then 1 else 0 := by
    split <;> decide
  have h8 : ((if a.expect_response then ([Action.get_response] : List Action)
      else [])).count Action.clear_display = 0 := by
    split <;> decide
  rw [build_actions_eq]
  simp only [List.count_append, h1, h2, h3, h4, h5, h6, h7, h8, count_clear_trailing]
  ring

/-! Concrete fixtures used by witnesses and counterexamples. -/

/-- A concrete environment: resource lookup prefixes "/res/", the renderer
brackets the template name, names split to themselves, a fixed fresh uuid,
and unmunging as the identity. -/
def tEnv : Env :=
  ⟨fun p => "/res/" ++ p, fun n _ => "<" ++ n ++ ">", fun s => s, "uuid-1", fun m => m⟩

/-- A concrete skill whose active session is "S". -/
def tSkill : MycroftSkill := ⟨"skill-a", "SkillA", some "S"⟩

/-- An inbound intent request carrying session id "R". -/
def reqMsg : Msg := ⟨"skill-a:intent", [("mycroft_session_id", PyValue.pystr "R")]⟩

/-- A handler that raises on every message. -/
def raisingHandler : Msg → HandlerOutcome := fun _ => HandlerOutcome.raises

theorem handle_intent_raises (env : Env) (skill : MycroftSkill) (message : Msg)
    (handler : Msg → HandlerOutcome)
    (h : handler (env.unmunge message) = HandlerOutcome.raises) :
    handle_intent env skill message handler =
      (set_session_context skill message,
       [(emit_start_session env (set_session_context skill message)
           (errorDialogArgs env (set_session_context skill message)) false none).1,
        end_session env (set_session_context skill message) defaultEndArgs none]) := by
  unfold handle_intent
  rw [h]

/-- C1 (counterexample): a raising handler makes the dispatch wrapper emit
two session envelopes — an error `mycroft.session.start` followed by the
fallback `mycroft.session.end` — not exactly one. -/
theorem C1_counterexample :
    (handle_intent tEnv tSkill reqMsg raisingHandler).2.map OutMessage.msg_type =
      ["mycroft.session.start", "mycroft.session.end"] ∧
    ¬((handle_intent tEnv tSkill reqMsg raisingHandler).2.length = 1) := by
  constructor
  · rfl
  · decide

/-- C1 (amended): for every registered intent handler, if the handler raises
while handling an inbound request, the dispatch wrapper emits exactly two
outbound session envelopes, in order a `mycroft.session.start` (speaking the
error dialog) and then a `mycroft.session.end`; in particular the terminal
envelope is still a SessionEnd. -/
theorem C1_raising_handler_amended (env : Env) (skill : MycroftSkill) (message : Msg)
    (handler : Msg → HandlerOutcome)
    (h : handler (env.unmunge message) = HandlerOutcome.raises) :
    (handle_intent env skill message handler).2.map OutMessage.msg_type =
      ["mycroft.session.start", "mycroft.session.end"] := by
  rw [handle_intent_raises env skill message handler h]
  rfl

/-- C1 (witness): the amended statement at the concrete raising fixture. -/
theorem C1_raising_handler_witness :
    (handle_intent tEnv tSkill reqMsg raisingHandler).2.map OutMessage.msg_type =
      ["mycroft.session.start", "mycroft.session.end"] :=
  C1_raising_handler_amended tEnv tSkill reqMsg raisingHandler rfl

/-- Arguments refuting C2: `expect_response=True` together with an explicit
`gui_clear=ON_IDLE`. -/
def c2args : BuildArgs :=
  ⟨none, none, true, none, GuiClear.on_idle, none, none, none, MessageSend.at_start, 0, true⟩

/-- C2 (counterexample): with `expect_response=True` and an explicitly
supplied `gui_clear=ON_IDLE`, the compiled list contains `wait_for_idle`
(right after `get_response`), so the claim fails for that explicit policy. -/
theorem C2_counterexample :
    c2args.expect_response = true ∧
    build_actions tEnv tSkill c2args = [Action.get_response, Action.wait_for_idle] ∧
    Action.wait_for_idle ∈ build_actions tEnv tSkill c2args := by
  refine ⟨rfl, by decide, by decide⟩

theorem effectiveGuiClear_true_on_idle {g : GuiClear}
    (h : effectiveGuiClear true g = GuiClear.on_idle) : g = GuiClear.on_idle := by
  cases g <;> simp_all [effectiveGuiClear]

/-- C2 (amended): with `expect_response=True` the compiled list always
contains `get_response`, and it contains no `wait_for_idle` unless
`gui_clear=ON_IDLE` was supplied explicitly (the `auto`→`never` degradation
only applies to the AUTO policy). -/
theorem C2_expect_response_amended (env : Env) (skill : MycroftSkill) (a : BuildArgs)
    (h : a.expect_response = true) :
    Action.get_response ∈ build_actions env skill a ∧
    (¬(a.gui_clear = GuiClear.on_idle) → Action.wait_for_idle ∉ build_actions env skill a) := by
  refine ⟨get_response_mem_build_of_expect h, ?_⟩
  intro hg hw
  have hrw := wait_for_idle_mem_build hw
  rw [h, resolveGuiClear_of_ne_auto (effectiveGuiClear_true_ne_auto a.gui_clear)] at hrw
  exact hg (effectiveGuiClear_true_on_idle hrw)

/-- Arguments witnessing the amended C2: `expect_response=True` with the
default AUTO policy. -/
def c2wargs : BuildArgs :=
  ⟨none, none, true, none, GuiClear.auto, none, none, none, MessageSend.at_start, 0, true⟩

/-- C2 (witness): the amended statement at a concrete input. -/
theorem C2_expect_response_witness :
    Action.get_response ∈ build_actions tEnv tSkill c2wargs ∧
    (¬(c2wargs.gui_clear = GuiClear.on_idle) →
      Action.wait_for_idle ∉ build_actions tEnv tSkill c2wargs) :=
  C2_expect_response_amended tEnv tSkill c2wargs rfl

/-- C3: for every input to `_build_actions`, the returned action list
contains at most one `clear_display` action, and never contains both a
`clear_display` action and a `wait_for_idle` action. -/
theorem C3_clear_display_invariant (env : Env) (skill : MycroftSkill) (a : BuildArgs) :
    (build_actions env skill a).count Action.clear_display ≤ 1 ∧
    ¬(Action.clear_display ∈ build_actions env skill a ∧
      Action.wait_for_idle ∈ build_actions env skill a) := by
  constructor
  · rw [count_clear_build]
    by_cases h : effectiveGuiClear a.expect_response a.gui_clear = GuiClear.at_start
    · rw [if_pos h, h, resolveGuiClear_of_ne_auto (by decide)]
      simp
    · rw [if_neg h]
      split <;> simp
  · rintro ⟨hc, hw⟩
    have hrw := wait_for_idle_mem_build hw
    rcases clear_display_mem_build hc with h1 | h1
    · rw [h1, resolveGuiClear_of_ne_auto (by decide)] at hrw
      cases hrw
    · rw [h1] at hrw
      cases hrw

/-- Arguments refuting C4 as stated: AUTO policy, a GUI page and speech, but
`expect_response=True`. -/
def c4cargs : BuildArgs :=
  ⟨none, some "hi", true, some (Items.single (GuiItem.page "p")), GuiClear.auto, none, none,
   none, MessageSend.at_start, 0, true⟩

/-- C4 (counterexample): with `gui_clear=AUTO`, a GUI page shown and literal
speech, but `expect_response=True`, no trailing `clear_display` is appended
(the policy has already degraded to NEVER), refuting the claim's first
branch as universally stated. -/
theorem C4_counterexample :
    c4cargs.gui_clear = GuiClear.auto ∧
    ¬(itemsToList c4cargs.gui = []) ∧ ¬(c4cargs.speak = none) ∧
    Action.clear_display ∉ build_actions tEnv tSkill c4cargs := by
  refine ⟨rfl, by decide, by decide, by decide⟩

/-- C4 (amended): when `gui_clear=AUTO` and `expect_response=False`, the
policy is resolved from the compiled content: pages shown plus any speech
(paired dialog or literal speak) appends a trailing `clear_display`; pages
shown with no speech makes `wait_for_idle` the last action; no pages shown
resolves the policy to NEVER and appends no trailing action — in
particular `speak="Hello"` alone compiles to exactly the one-element list
with the literal speak action. -/
theorem C4_auto_resolution_amended (env : Env) (skill : MycroftSkill) (a : BuildArgs)
    (hauto : a.gui_clear = GuiClear.auto) (hexp : a.expect_response = false) :
    ((¬(itemsToList a.gui = []) ∧ (¬(itemsToList a.dialog = []) ∨ ¬(a.speak = none))) →
        (build_actions env skill a).getLast? = some Action.clear_display) ∧
    ((¬(itemsToList a.gui = []) ∧ itemsToList a.dialog = [] ∧ a.speak = none) →
        (build_actions env skill a).getLast? = some Action.wait_for_idle) ∧
    (itemsToList a.gui = [] →
        resolveGuiClear (effectiveGuiClear a.expect_response a.gui_clear)
          (itemsToList a.gui) (itemsToList a.dialog) a.speak = GuiClear.never ∧
        Action.clear_display ∉ build_actions env skill a ∧
        Action.wait_for_idle ∉ build_actions env skill a) ∧
    (∀ (env2 : Env) (skill2 : MycroftSkill),
        build_actions env2 skill2
          ⟨none, some "Hello", true, none, GuiClear.auto, none, none, none,
           MessageSend.at_start, 0, false⟩ = [Action.speak "Hello" none true]) := by
  have hgc : effectiveGuiClear a.expect_response a.gui_clear = GuiClear.auto := by
    rw [hexp, hauto, effectiveGuiClear_false]
  refine ⟨?_, ?_, ?_, ?_⟩
  · rintro ⟨hg, hs⟩
    have hr : resolveGuiClear (effectiveGuiClear a.expect_response a.gui_clear)
        (itemsToList a.gui) (itemsToList a.dialog) a.speak = GuiClear.at_end := by
      rw [hgc]
      unfold resolveGuiClear
      rw [if_pos rfl, if_pos hg, if_pos (by simpa [Option.ne_none_iff_isSome] using hs)]
    rw [build_actions_eq, hr]
    rw [show trailingActions GuiClear.at_end = [Action.clear_display] from rfl]
    exact List.getLast?_concat _
  · rintro ⟨hg, hd, hs⟩
    have hr : resolveGuiClear (effectiveGuiClear a.expect_response a.gui_clear)
        (itemsToList a.gui) (itemsToList a.dialog) a.speak = GuiClear.on_idle := by
      rw [hgc]
      unfold resolveGuiClear
      rw [if_pos rfl, if_pos hg, if_neg (by simp [hd, hs])]
    rw [build_actions_eq, hr]
    rw [show trailingActions GuiClear.on_idle = [Action.wait_for_idle] from rfl]
    exact List.getLast?_concat _
  · intro h3
    have hr : resolveGuiClear (effectiveGuiClear a.expect_response a.gui_clear)
        (itemsToList a.gui) (itemsToList a.dialog) a.speak = GuiClear.never := by
      rw [hgc]
      unfold resolveGuiClear
      rw [if_pos rfl, if_neg (by simp [h3])]
    refine ⟨hr, ?_, ?_⟩
    · intro hmem
      rcases clear_display_mem_build hmem with h | h
      · rw [hgc] at h; cases h
      · rw [hr] at h; cases h
    · intro hmem
      have h := wait_for_idle_mem_build hmem
      rw [hr] at h
      cases h
  · intro env2 skill2
    rfl

/-- Arguments witnessing the amended C4: AUTO policy, a GUI page and literal
speech, no response expected. -/
def c4wargs : BuildArgs :=
  ⟨none, some "hi", true, some (Items.single (GuiItem.page "p")), GuiClear.auto, none, none,
   none, MessageSend.at_start, 0, false⟩

/-- C4 (witness): the amended statement's first branch at a concrete input. -/
theorem C4_auto_resolution_witness :
    (build_actions tEnv tSkill c4wargs).getLast? = some Action.clear_display :=
  (C4_auto_resolution_amended tEnv tSkill c4wargs rfl rfl).1 (by decide)

/-- C5: the dialog and GUI sequences are combined by a padding zip — the
output of the interleaving stage has exactly one action per dialog item plus
one per GUI item (nothing truncated); at each aligned position the
`show_page` action is emitted before the `speak` action; and concretely
`dialog=["d1","d2"], gui=["g1"]` compiles to `show_page(g1), speak(d1),
speak(d2)` (followed only by the AUTO-resolved trailing clear). -/
theorem C5_positional_interleaving :
    (∀ (env : Env) (skill : MycroftSkill) (w : Bool) (ds : List DialogItem)
        (gs : List GuiItem),
        (interleavedActions env skill w ds gs).length = ds.length + gs.length) ∧
    (∀ (env : Env) (skill : MycroftSkill) (w : Bool) (d : DialogItem) (ds : List DialogItem)
        (g : GuiItem) (gs : List GuiItem),
        interleavedActions env skill w (d :: ds) (g :: gs) =
          showPageAction env skill g :: speakDialogAction env w d ::
            interleavedActions env skill w ds gs) ∧
    (∀ (env : Env) (skill : MycroftSkill),
        build_actions env skill
          ⟨some (Items.seq [DialogItem.name "d1", DialogItem.name "d2"]), none, true,
           some (Items.seq [GuiItem.page "g1"]), GuiClear.auto, none, none, none,
           MessageSend.at_start, 0, false⟩ =
          [showPageAction env skill (GuiItem.page "g1"),
           speakDialogAction env true (DialogItem.name "d1"),
           speakDialogAction env true (DialogItem.name "d2"),
           Action.clear_display]) := by
  refine ⟨?_, ?_, ?_⟩
  · intro env skill w ds
    induction ds with
    | nil =>
      intro gs
      simp only [interleavedActions, List.length_map, List.length_nil]
      omega
    | cons d ds ih =>
      intro gs
      cases gs with
      | nil =>
        simp only [interleavedActions, List.length_cons, List.length_nil, ih []]
      | cons g gs =>
        simp only [interleavedActions, List.length_cons, ih gs]
        omega
  · intro env skill w d ds g gs
    rfl
  · intro env skill
    rfl

/-- An attached message with an empty payload, used to refute C6. -/
def c6msg : Msg := ⟨"t", []⟩

/-- Arguments refuting C6 as stated: an `at_end` message together with a
music URI. -/
def c6cargs : BuildArgs :=
  ⟨none, none, true, none, GuiClear.auto, none, some "m", some c6msg,
   MessageSend.at_end, 0, false⟩

/-- C6 (counterexample): with send-policy `at_end` and a music URI, the
message action is followed by `stream_music`, and there is no trailing
`clear_display`/`wait_for_idle` at all — so the message action is not the
last element before any trailing clear/idle action. -/
theorem C6_counterexample :
    build_actions tEnv tSkill c6cargs =
      [Action.message "t" (some 0) [("mycroft_session_id", PyValue.pystr "S")],
       Action.stream_music "m"] ∧
    ¬((build_actions tEnv tSkill c6cargs).getLast? =
        some (Action.message "t" (some 0) [("mycroft_session_id", PyValue.pystr "S")])) := by
  refine ⟨by decide, by decide⟩

/-- C6 (amended): an attached message with send-policy `at_start` is the
first element of the compiled list; with send-policy `at_end` it is
immediately followed only by `stream_music`, `get_response` and trailing
`clear_display`/`wait_for_idle` actions (it precedes those slots rather than
only the trailing clear/idle ones). -/
theorem C6_message_placement_amended (env : Env) (skill : MycroftSkill) (a : BuildArgs)
    (m : Msg) (hm : a.message = some m) :
    (a.message_send = MessageSend.at_start →
        (build_actions env skill a).head? =
          some (Action.message m.msg_type none (mergeData skill.mycroft_session_id m.data))) ∧
    (a.message_send = MessageSend.at_end →
        ∃ l1 l2, build_actions env skill a =
            l1 ++ Action.message m.msg_type (some a.message_delay)
                (mergeData skill.mycroft_session_id m.data) :: l2 ∧
          ∀ x ∈ l2, (∃ u, x = Action.stream_music u) ∨ x = Action.get_response ∨
            x = Action.clear_display ∨ x = Action.wait_for_idle) := by
  constructor
  · intro hs
    rw [build_actions_eq, hm, hs]
    rw [show messageStartActions skill (some m) MessageSend.at_start =
      [Action.message m.msg_type none (mergeData skill.mycroft_session_id m.data)] from rfl]
    rfl
  · intro hs
    refine ⟨messageStartActions skill a.message a.message_send
        ++ (if effectiveGuiClear a.expect_response a.gui_clear = GuiClear.at_start
              then [Action.clear_display] else [])
        ++ audioAlertActions a.audio_alert
        ++ interleavedActions env skill a.speak_wait (itemsToList a.dialog) (itemsToList a.gui)
        ++ speakActions a.speak a.speak_wait,
      musicActions a.music_uri
        ++ (if a.expect_response then ([Action.get_response] : List Action) else [])
        ++ trailingActions (resolveGuiClear (effectiveGuiClear a.expect_response a.gui_clear)
            (itemsToList a.gui) (itemsToList a.dialog) a.speak), ?_, ?_⟩
    · rw [build_actions_eq, hm, hs]
      rw [show messageEndActions skill (some m) MessageSend.at_end a.message_delay =
        [Action.message m.msg_type (some a.message_delay)
          (mergeData skill.mycroft_session_id m.data)] from rfl]
      simp only [hm, hs, List.append_assoc, List.singleton_append, List.cons_append, List.nil_append]
    · intro x hx
      rcases List.mem_append.mp hx with hx | hx
      · rcases List.mem_append.mp hx with hx | hx
        · obtain ⟨u, _, _, rfl⟩ := mem_musicActions.mp hx
          exact Or.inl ⟨u, rfl⟩
        · by_cases he : a.expect_response = true
          · rw [if_pos he] at hx
            rw [List.mem_singleton.mp hx]
            exact Or.inr (Or.inl rfl)
          · rw [if_neg he] at hx
            cases hx
      · rcases mem_trailingActions.mp hx with ⟨_, rfl⟩ | ⟨_, rfl⟩
        · exact Or.inr (Or.inr (Or.inl rfl))
        · exact Or.inr (Or.inr (Or.inr rfl))

/-- C6 (witness): the amended statement at the concrete `at_end`/music
fixture. -/
theorem C6_message_placement_witness :
    (c6cargs.message_send = MessageSend.at_start →
        (build_actions tEnv tSkill c6cargs).head? =
          some (Action.message c6msg.msg_type none
            (mergeData tSkill.mycroft_session_id c6msg.data))) ∧
    (c6cargs.message_send = MessageSend.at_end →
        ∃ l1 l2, build_actions tEnv tSkill c6cargs =
            l1 ++ Action.message c6msg.msg_type (some c6cargs.message_delay)
                (mergeData tSkill.mycroft_session_id c6msg.data) :: l2 ∧
          ∀ x ∈ l2, (∃ u, x = Action.stream_music u) ∨ x = Action.get_response ∨
            x = Action.clear_display ∨ x = Action.wait_for_idle) :=
  C6_message_placement_amended tEnv tSkill c6cargs c6msg rfl

theorem handle_intent_fst (env : Env) (skill : MycroftSkill) (message : Msg)
    (handler : Msg → HandlerOutcome) :
    (handle_intent env skill message handler).1 = set_session_context skill message := by
  unfold handle_intent
  cases handler (env.unmunge message) with
  | returns r => cases r <;> rfl
  | raises => rfl

/-- C7: a `continue_session` call with no explicit session id made while
handling an intent request whose inbound message carried session id `r`
(i.e. against the session context the dispatch wrapper establishes) produces
a `mycroft.session.continue` envelope carrying exactly `r`. -/
theorem C7_continue_session_default_id (env : Env) (skill : MycroftSkill) (message : Msg)
    (handler : Msg → HandlerOutcome) (a : BuildArgs) (state : Option Dict) (r : String)
    (h : dictGet message.data "mycroft_session_id" = some (PyValue.pystr r)) :
    (continue_session env (handle_intent env skill message handler).1
        a none state).mycroft_session_id = some r := by
  rw [handle_intent_fst]
  unfold continue_session set_session_context
  simp [h, optStrOfPy]

/-- C7 (witness): the statement at the concrete request carrying "R". -/
theorem C7_continue_session_default_id_witness :
    (continue_session tEnv (handle_intent tEnv tSkill reqMsg raisingHandler).1
        defaultBuildArgs none none).mycroft_session_id = some "R" :=
  C7_continue_session_default_id tEnv tSkill reqMsg raisingHandler defaultBuildArgs none "R" rfl

/-- C8: an inbound `mycroft.skill-response` whose skill id or session id does
not match the active context produces no outbound message, does not invoke
the `raw_utterance` reply handler, and leaves the skill state unchanged. -/
theorem C8_response_mismatch_dropped (env : Env) (skill : MycroftSkill)
    (raw : Option String → Option PyValue → HandlerOutcome) (message : Msg)
    (h : pyEqOptStr (dictGet message.data "skill_id") (some skill.skill_id) = false ∨
         pyEqOptStr (dictGet message.data "mycroft_session_id")
           skill.mycroft_session_id = false) :
    handle_skill_response env skill raw message = (skill, [], false) := by
  have hneg : ¬(pyEqOptStr (dictGet message.data "skill_id") (some skill.skill_id) = true ∧
      pyEqOptStr (dictGet message.data "mycroft_session_id")
        skill.mycroft_session_id = true) := by
    rintro ⟨h1, h2⟩
    rcases h with h | h
    · rw [h1] at h; cases h
    · rw [h2] at h; cases h
  unfold handle_skill_response
  rw [if_neg hneg]

/-- A response addressed to a different skill. -/
def mismatchMsg : Msg :=
  ⟨"mycroft.skill-response",
   [("skill_id", PyValue.pystr "other-skill"), ("mycroft_session_id", PyValue.pystr "S")]⟩

/-- A raw-utterance handler that returns nothing. -/
def nullRaw : Option String → Option PyValue → HandlerOutcome :=
  fun _ _ => HandlerOutcome.returns none

/-- C8 (witness): the statement at a concrete mismatching response. -/
theorem C8_response_mismatch_dropped_witness :
    handle_skill_response tEnv tSkill nullRaw mismatchMsg = (tSkill, [], false) :=
  C8_response_mismatch_dropped tEnv tSkill nullRaw mismatchMsg (Or.inl (by decide))

/-- C9: every message action emitted by `_build_actions` (at_start or at_end
placement) builds its payload by inserting the current session id first and
spreading the attached message's own data over it — so a
"mycroft_session_id" key in the attached message's own data overrides the
current session id in the emitted action. -/
theorem C9_message_data_overrides_session (env : Env) (skill : MycroftSkill) (a : BuildArgs)
    (m : Msg) (v : PyValue) (t : String) (dl : Option MessageDelay) (d : Dict)
    (hm : a.message = some m)
    (hnd : (m.data.map Prod.fst).Nodup)
    (hv : dictGet m.data "mycroft_session_id" = some v)
    (hmem : Action.message t dl d ∈ build_actions env skill a) :
    dictGet d "mycroft_session_id" = some v := by
  rw [mem_build_actions] at hmem
  rcases hmem with h | h | h | h | h | h | h | h | h
  · obtain ⟨mm, hmm, _, hx⟩ := mem_messageStartActions.mp h
    rw [hm] at hmm
    injection hmm with hmm
    subst hmm
    injection hx with _ _ hx
    subst hx
    exact dictGet_mergeData_of_mem skill.mycroft_session_id m.data v hnd hv
  · by_cases hc : effectiveGuiClear a.expect_response a.gui_clear = GuiClear.at_start
    · rw [if_pos hc] at h
      simp at h
    · rw [if_neg hc] at h
      cases h
  · obtain ⟨u, _, _, hx⟩ := mem_audioAlertActions.mp h
    simp at hx
  · rcases mem_interleavedActions h with ⟨g, hx⟩ | ⟨dd, hx⟩
    · obtain ⟨p, pd, n, hg⟩ := showPageAction_shape env skill g
      rw [hg] at hx
      simp at hx
    · obtain ⟨u, n, hg⟩ := speakDialogAction_shape env a.speak_wait dd
      rw [hg] at hx
      simp at hx
  · obtain ⟨u, _, hx⟩ := mem_speakActions.mp h
    simp at hx
  · obtain ⟨mm, hmm, _, hx⟩ := mem_messageEndActions.mp h
    rw [hm] at hmm
    injection hmm with hmm
    subst hmm
    injection hx with _ _ hx
    subst hx
    exact dictGet_mergeData_of_mem skill.mycroft_session_id m.data v hnd hv
  · obtain ⟨u, _, _, hx⟩ := mem_musicActions.mp h
    simp at hx
  · by_cases he : a.expect_response = true
    · rw [if_pos he] at h
      simp at h
    · rw [if_neg he] at h
      cases h
  · rcases mem_trailingActions.mp h with ⟨_, hx⟩ | ⟨_, hx⟩ <;> simp at hx

/-- An attached message whose own payload already carries a session id. -/
def c9msg : Msg := ⟨"t", [("x", PyValue.pystr "1"), ("mycroft_session_id", PyValue.pystr "OWN")]⟩

/-- Arguments attaching `c9msg` at the start. -/
def c9args : BuildArgs :=
  ⟨none, none, true, none, GuiClear.never, none, none, some c9msg, MessageSend.at_start, 0, false⟩

/-- C9 (witness): the statement at the concrete attached message, whose own
"mycroft_session_id" value "OWN" overrides the skill's current session "S". -/
theorem C9_message_data_overrides_session_witness :
    dictGet (mergeData (some "S") c9msg.data) "mycroft_session_id" =
      some (PyValue.pystr "OWN") :=
  C9_message_data_overrides_session tEnv tSkill c9args c9msg (PyValue.pystr "OWN") "t" none
    (mergeData (some "S") c9msg.data) rfl (by decide) (by decide) (by decide)

theorem end_session_actions (env : Env) (skill : MycroftSkill) (a : EndArgs)
    (mycroft_session_id : Option String) :
    (end_session env skill a mycroft_session_id).actions =
      build_actions env skill a.toBuildArgs := rfl

/-- C10: `end_session` exposes no `expect_response` parameter (its argument
record `EndArgs` has none) and always invokes the action compiler with
`expect_response=False`, so no `end_session` envelope — nor the
`abort_session` one built from it — ever contains a `get_response` action. -/
theorem C10_end_session_no_get_response (env : Env) (skill : MycroftSkill) :
    (∀ (a : EndArgs) (mycroft_session_id : Option String),
        Action.get_response ∉ (end_session env skill a mycroft_session_id).actions) ∧
    Action.get_response ∉ (abort_session env skill).actions := by
  have key : ∀ (a : EndArgs) (sid : Option String),
      Action.get_response ∉ (end_session env skill a sid).actions := by
    intro a sid hmem
    rw [end_session_actions] at hmem
    have hexp := get_response_mem_build hmem
    simp [EndArgs.toBuildArgs] at hexp
  exact ⟨key, fun hmem => key defaultEndArgs none hmem⟩

end MycroftDinkum
